import Mathlib

/-!
Shallow embedding of `src/analysis.py`: a single sequential pandas pipeline
(generate -> save CSV -> load -> clean -> group-by-year summarize -> plot).

Modelling conventions:
* The backing store `data/flights.csv` is modelled at the record/field level as
  `Option (List (List String))`: `none` is an absent file, `some []` a zero-byte
  file, and otherwise the first record is the header line.  (pandas' CSV quoting
  makes field boundaries robust, so the field-level view is faithful.)
* Integer cells are rendered to / parsed from decimal strings by an explicit
  verified codec (`renderInt` / `parseInt`), mirroring `DataFrame.to_csv` and
  the dtype inference of `pd.read_csv`.
* Floating-point statistics are embedded as exact rationals; only the square
  root in `std` and the sine in the seasonal term need `Real`.
* numpy's unseeded Gaussian noise is a parameter (`noise`, resp. the passenger
  function `p`), never a fixed value.
-/

/-- One row of the dataset: `year`, full English month name, `passengers`
(line 60-64 of `analysis.py`). -/
structure Sample where
  year : Int
  month : String
  passengers : Int
deriving DecidableEq, Repr

/-! ### Decimal codec for integer CSV cells -/

/-- The ASCII digit character for `d` (`0 ≤ d ≤ 9`). -/
def digitChar (d : Nat) : Char := Char.ofNat (48 + d)

/-- Parse one ASCII character as a decimal digit. -/
def charDigit (c : Char) : Option Nat :=
  if 48 ≤ c.toNat ∧ c.toNat ≤ 57 then some (c.toNat - 48) else none

/-- Fuel-indexed most-significant-first decimal rendering of a natural. -/
def renderNatAux : Nat → Nat → List Char
  | 0, _ => []
  | fuel + 1, n => if n = 0 then [] else renderNatAux fuel (n / 10) ++ [digitChar (n % 10)]

/-- Decimal rendering of a natural number (as written by `to_csv`). -/
def renderNat (n : Nat) : String :=
  if n = 0 then "0" else String.mk (renderNatAux n n)

/-- Accumulating decimal parse of a character list. -/
def parseNatAux : List Char → Nat → Option Nat
  | [], acc => some acc
  | c :: cs, acc =>
    match charDigit c with
    | none => none
    | some d => parseNatAux cs (acc * 10 + d)

/-- Parse a decimal natural; fails on the empty string or non-digits. -/
def parseNat (s : String) : Option Nat :=
  match s.data with
  | [] => none
  | l => parseNatAux l 0

/-- Decimal rendering of an integer (as written by `to_csv`). -/
def renderInt (i : Int) : String :=
  if i < 0 then String.mk ('-' :: (renderNat i.natAbs).data) else renderNat i.natAbs

/-- Parse a decimal integer (the dtype inference of `pd.read_csv` on an
all-numeric column). -/
def parseInt (s : String) : Option Int :=
  match s.data with
  | [] => none
  | c :: cs =>
    if c = '-' then (parseNat (String.mk cs)).map (fun n : Nat => -(n : Int))
    else (parseNat s).map (fun n : Nat => (n : Int))

/-! ### Backing store and Loader (`load_data`, lines 75-88)

The store is `Option (List (List String))`: `none` an absent file, `some []` a
zero-byte file, otherwise the header record followed by data records.  A record
longer than the header is pandas' tokenizer `ParserError`; a shorter record is
padded with missing values, and an empty field is a missing value (NaN). -/

inductive LoadError where
  | NotFound
  | EmptyData
  | ParseError
deriving DecidableEq, Repr

structure Table where
  header : List String
  rows : List (List (Option String))
deriving DecidableEq, Repr

/-- An empty CSV field is read as NaN. -/
def toCell (s : String) : Option String := if s = "" then none else some s

/-- NaN-pad a short record to the header width. -/
def padRow (w : Nat) (r : List String) : List (Option String) :=
  r.map toCell ++ List.replicate (w - r.length) none

/-- `load_data` (lines 75-88): `FileNotFoundError`, `EmptyDataError` and
`ParserError` become the three error kinds of the spec's taxonomy. -/
def load_data (store : Option (List (List String))) : Except LoadError Table :=
  match store with
  | none => .error .NotFound
  | some [] => .error .EmptyData
  | some (header :: records) =>
    if records.all (fun r => r.length ≤ header.length)
    then .ok ⟨header, records.map (padRow header.length)⟩
    else .error .ParseError

/-- Index of a column name in a header. -/
def colIdx : List String → String → Option Nat
  | [], _ => none
  | h :: t, c => if h = c then some 0 else (colIdx t c).map (· + 1)

/-- `df[c]`: `none` models the `KeyError` raised on a missing column. -/
def getCol (t : Table) (c : String) : Option (List (Option String)) :=
  (colIdx t.header c).map (fun i => t.rows.map (fun r => r.getD i none))

/-- One loaded row under the (year, month, passengers) schema, fields
`none` when missing or unparseable. -/
structure RawRow where
  year : Option Int
  month : Option String
  passengers : Option Int
deriving DecidableEq, Repr

def cellAt (t : Table) (r : List (Option String)) (c : String) : Option String :=
  (colIdx t.header c).bind (fun i => r.getD i none)

def typedRow (t : Table) (r : List (Option String)) : RawRow :=
  ⟨(cellAt t r "year").bind parseInt, cellAt t r "month",
    (cellAt t r "passengers").bind parseInt⟩

/-- `df.dropna()` (line 104) composed with the loaded table's typed view:
keep exactly the rows with no missing field. -/
def dropna (t : Table) : List Sample :=
  t.rows.filterMap (fun r =>
    match typedRow t r with
    | ⟨some y, some m, some p⟩ => some ⟨y, m, p⟩
    | _ => none)

/-! ### Generator (lines 36-69) -/

def csvHeader : List String := ["year", "month", "passengers"]

/-- One CSV record of `df0.to_csv` (line 67). -/
def rowOf (s : Sample) : List String := [renderInt s.year, s.month, renderInt s.passengers]

/-- `df0.to_csv(csv_path, index=False)`: header record then data records. -/
def writeCSV (ds : List Sample) : List (List String) := csvHeader :: ds.map rowOf

/-- `pd.date_range('2000-01-01', '2025-12-01', freq='MS')` has one entry per
whole month of the inclusive range. -/
def numMonths : Nat := (2025 - 2000) * 12 + (12 - 1) + 1

/-- Calendar year of month index `i` since 2000-01. -/
def yearAt (i : Nat) : Int := 2000 + (i / 12 : Nat)

/-- Calendar month (1-12) of month index `i` since 2000-01. -/
def monthIdxAt (i : Nat) : Nat := i % 12 + 1

/-- `dates.month_name()` (line 62): full English month names. -/
def monthName : Nat → String
  | 1 => "January"
  | 2 => "February"
  | 3 => "March"
  | 4 => "April"
  | 5 => "May"
  | 6 => "June"
  | 7 => "July"
  | 8 => "August"
  | 9 => "September"
  | 10 => "October"
  | 11 => "November"
  | 12 => "December"
  | _ => ""

/-- The generated DataFrame `df0` (lines 60-64); the passenger column is a
parameter `p` standing for the unseeded trend+seasonal+noise values. -/
def genDataset (p : Nat → Int) : List Sample :=
  (List.range numMonths).map (fun i => ⟨yearAt i, monthName (monthIdxAt i), p i⟩)

/-- The `os.path.exists` guard (line 36): generation runs only when the store
is absent, otherwise the store is left untouched. -/
def generate (store : Option (List (List String))) (p : Nat → Int) :
    Option (List (List String)) :=
  match store with
  | some content => some content
  | none => some (writeCSV (genDataset p))

/-- Seasonal term (line 54): `seasonal_amplitude * sin(2*pi*(month-1)/12)`. -/
noncomputable def seasonal (m : Nat) : ℝ := 80 * Real.sin (2 * Real.pi * ((m : ℝ) - 1) / 12)

/-- numpy's `.round()`: round half to even. -/
noncomputable def npRound (x : ℝ) : Int :=
  if x - ⌊x⌋ = 1 / 2 then (if Even ⌊x⌋ then ⌊x⌋ else ⌊x⌋ + 1) else round x

/-- Passenger count at month index `i` (lines 46-57):
`base + trend_per_month*i + seasonal + noise`, rounded to nearest integer;
`noise` stands for the unseeded Gaussian draw. -/
noncomputable def passengersAt (noise : Nat → ℝ) (i : Nat) : Int :=
  npRound (200 + 5 / 2 * (i : ℝ) + seasonal (monthIdxAt i) + noise i)

/-! ### Cleaner/Summarizer (lines 104-124) -/

/-- Median of an already sorted list, pandas convention: middle element for
odd length, average of the two middle elements for even length. -/
def medianOfSorted (l : List Int) : ℚ :=
  if l.length % 2 = 1 then ((l.getD (l.length / 2) 0 : Int) : ℚ)
  else (((l.getD (l.length / 2 - 1) 0 : Int) : ℚ) + ((l.getD (l.length / 2) 0 : Int) : ℚ)) / 2

/-- Arithmetic mean of the values, exact. -/
def meanQ (xs : List Int) : ℚ := (xs.map (fun x : Int => (x : ℚ))).sum / xs.length

/-- pandas `median`: sort, then take the positional median. -/
def medianQ (xs : List Int) : ℚ := medianOfSorted (xs.insertionSort (· ≤ ·))

/-- pandas `std`: unbiased sample variance, NaN (here `none`) when the group
has at most one element. The standard deviation is its square root. -/
def sampleVar (xs : List Int) : Option ℚ :=
  if xs.length ≤ 1 then none
  else some ((xs.map (fun x : Int => ((x : ℚ) - meanQ xs) ^ 2)).sum / ((xs.length : ℚ) - 1))

/-- One output row of the grouped aggregation after the column relabeling
`{year, avg, median, std_dev, count}` (lines 116-122); `var` carries the
squared `std_dev` so that the row stays computable. -/
structure YearSummary where
  year : Int
  avg : ℚ
  median : ℚ
  var : Option ℚ
  count : Nat
deriving DecidableEq, Repr

/-- The `std_dev` column itself: square root of the sample variance, `none`
standing for NaN. -/
noncomputable def YearSummary.std_dev (s : YearSummary) : Option ℝ :=
  s.var.map (fun q : ℚ => Real.sqrt (q : ℝ))

/-- `groupby('year')` group keys: distinct years, ascending (pandas sorts
group keys by default). -/
def groupKeys (rows : List Sample) : List Int :=
  List.insertionSort (· ≤ ·) (rows.map Sample.year).dedup

/-- The passenger values of the group of year `y`. -/
def groupOf (rows : List Sample) (y : Int) : List Int :=
  (rows.filter (fun r => r.year = y)).map Sample.passengers

/-- `avg_by_year` (lines 116-122): one summary row per distinct year. -/
def avg_by_year (rows : List Sample) : List YearSummary :=
  (groupKeys rows).map (fun y =>
    ⟨y, meanQ (groupOf rows y), medianQ (groupOf rows y), sampleVar (groupOf rows y),
      (groupOf rows y).length⟩)

/-- load -> dropna -> groupby/agg, the statistics half of the pipeline. -/
def pipeline (store : Option (List (List String))) : Except LoadError (List YearSummary) :=
  (load_data store).map (fun t => avg_by_year (dropna t))

/-! ### Derived date field (line 135): `pd.to_datetime(year + '-' + month)` -/

/-- Month-name recognizer: the generator's output alphabet, the full English
month names (pandas' parser accepts a superset; the claims only quantify over
these). -/
def parseMonthName (s : String) : Option Nat :=
  if s = "January" then some 1
  else if s = "February" then some 2
  else if s = "March" then some 3
  else if s = "April" then some 4
  else if s = "May" then some 5
  else if s = "June" then some 6
  else if s = "July" then some 7
  else if s = "August" then some 8
  else if s = "September" then some 9
  else if s = "October" then some 10
  else if s = "November" then some 11
  else if s = "December" then some 12
  else none

/-- The true calendar date (year, month, day 1) derived from one row. -/
def toDate (y : Int) (m : String) : Option (Int × Nat × Nat) :=
  (parseMonthName m).map (fun mm => (y, mm, 1))

/-- `pd.to_datetime` over the whole column: the first unrecognized month
aborts the run (uncaught exception, modelled as `Except.error`). -/
def deriveDates : List Sample → Except String (List (Int × Nat × Nat))
  | [] => .ok []
  | s :: t =>
    match toDate s.year s.month with
    | none => .error s.month
    | some d => (deriveDates t).map (fun l => d :: l)

/-- The loaded table of `writeCSV ds`: every record already has the header's
width. -/
def csvTable (ds : List Sample) : Table :=
  ⟨csvHeader, (ds.map rowOf).map (padRow csvHeader.length)⟩

/-- Write the dataset to the store, load it back, clean it. -/
def roundTrip (ds : List Sample) : Except LoadError (List Sample) :=
  (load_data (some (writeCSV ds))).map dropna

/-- The concrete store of claim C6: a well-formed CSV missing the
`passengers` column. -/
def missingPassengersStore : List (List String) :=
  [["year", "month"], ["2000", "January"]]

/-- The three concrete rows of claim C2. -/
def demoRows : List Sample :=
  [⟨2000, "January", 210⟩, ⟨2000, "February", 205⟩, ⟨2001, "January", 260⟩]

deriving instance DecidableEq for Except

/-! ### Claim theorems -/

/-! #### Codec lemmas -/

theorem charDigit_digitChar : ∀ d < 10, charDigit (digitChar d) = some d := by decide

theorem digitChar_ne_dash : ∀ d < 10, digitChar d ≠ '-' := by decide

theorem renderNatAux_zero : ∀ fuel, renderNatAux fuel 0 = [] := by
  intro fuel; cases fuel <;> simp [renderNatAux]

theorem parseNatAux_append (xs ys : List Char) (acc : Nat) :
    parseNatAux (xs ++ ys) acc =
      (parseNatAux xs acc).bind (fun a => parseNatAux ys a) := by
  induction xs generalizing acc with
  | nil => simp [parseNatAux]
  | cons c cs ih =>
    simp only [List.cons_append, parseNatAux]
    cases charDigit c with
    | none => simp
    | some d => simp [ih]

theorem renderNatAux_spec :
    ∀ fuel n, n ≠ 0 → n ≤ fuel →
      ∃ p, 0 < p ∧ renderNatAux fuel n ≠ [] ∧
        (∀ c ∈ renderNatAux fuel n, ∃ d, d < 10 ∧ c = digitChar d) ∧
        (∀ acc, parseNatAux (renderNatAux fuel n) acc = some (acc * p + n)) := by
  intro fuel
  induction fuel with
  | zero => intro n hn hle; omega
  | succ fuel ih =>
    intro n hn hle
    rw [renderNatAux, if_neg hn]
    by_cases h10 : n < 10
    · have hdiv : n / 10 = 0 := Nat.div_eq_of_lt h10
      rw [hdiv, renderNatAux_zero, List.nil_append]
      refine ⟨10, by norm_num, by simp, ?_, ?_⟩
      · intro c hc
        simp only [List.mem_singleton] at hc
        exact ⟨n % 10, Nat.mod_lt _ (by norm_num), hc⟩
      · intro acc
        have hmod : n % 10 = n := Nat.mod_eq_of_lt h10
        rw [hmod]
        have hcd : charDigit (digitChar n) = some n := charDigit_digitChar n h10
        simp [parseNatAux, hcd]
    · have hge : 10 ≤ n := by omega
      have hdn : n / 10 ≠ 0 := by
        have := Nat.div_pos hge (by norm_num)
        omega
      have hdle : n / 10 ≤ fuel := by
        have := Nat.div_lt_self (by omega : 0 < n) (by norm_num : 1 < 10)
        omega
      obtain ⟨p, hp, hne, hchars, hparse⟩ := ih (n / 10) hdn hdle
      refine ⟨p * 10, by positivity, by simp, ?_, ?_⟩
      · intro c hc
        rcases List.mem_append.mp hc with h | h
        · exact hchars c h
        · simp only [List.mem_singleton] at h
          exact ⟨n % 10, Nat.mod_lt _ (by norm_num), h⟩
      · intro acc
        rw [parseNatAux_append, hparse acc]
        have hlast : parseNatAux [digitChar (n % 10)] (acc * p + n / 10) =
            some ((acc * p + n / 10) * 10 + n % 10) := by
          simp [parseNatAux, charDigit_digitChar (n % 10) (Nat.mod_lt _ (by norm_num))]
        rw [Option.some_bind, hlast]
        congr 1
        have := Nat.div_add_mod n 10
        ring_nf
        omega

theorem renderNat_ne_empty (n : Nat) : (renderNat n).data ≠ [] := by
  rw [renderNat]
  split
  · simp
  · next hn =>
    obtain ⟨p, _, hne, _, _⟩ := renderNatAux_spec n n hn le_rfl
    simpa using hne

theorem renderNat_head_digit (n : Nat) :
    ∀ c ∈ (renderNat n).data, ∃ d, d < 10 ∧ c = digitChar d := by
  rw [renderNat]
  split
  · intro c hc
    simp only [String.data] at hc
    refine ⟨0, by norm_num, ?_⟩
    simp only [List.mem_singleton] at hc
    subst hc; rfl
  · next hn =>
    intro c hc
    obtain ⟨p, _, _, hchars, _⟩ := renderNatAux_spec n n hn le_rfl
    exact hchars c (by simpa using hc)

theorem parseNat_renderNat (n : Nat) : parseNat (renderNat n) = some n := by
  by_cases hn : n = 0
  · subst hn; decide
  · have hdata : (renderNat n).data = renderNatAux n n := by
      rw [renderNat, if_neg hn]
    obtain ⟨p, hp, hne, _, hparse⟩ := renderNatAux_spec n n hn le_rfl
    rw [parseNat, hdata]
    cases h : renderNatAux n n with
    | nil => exact absurd h hne
    | cons c cs =>
      have := hparse 0
      rw [h] at this
      simpa using this

theorem parseInt_mk_dash (l : List Char) :
    parseInt ⟨'-' :: l⟩ = (parseNat ⟨l⟩).map (fun n : Nat => -(n : Int)) := rfl

theorem parseInt_digits (s : String) (hne : s.data ≠ [])
    (hd : ∀ c ∈ s.data, ∃ d, d < 10 ∧ c = digitChar d) :
    parseInt s = (parseNat s).map (fun n : Nat => (n : Int)) := by
  unfold parseInt
  split
  · next heq => exact absurd heq hne
  · next c cs heq =>
    have hc : c ∈ s.data := by rw [heq]; exact List.mem_cons_self _ _
    obtain ⟨d, hdlt, rfl⟩ := hd c hc
    rw [if_neg (digitChar_ne_dash d hdlt)]

theorem parseInt_renderInt (i : Int) : parseInt (renderInt i) = some i := by
  by_cases hi : i < 0
  · rw [renderInt, if_pos hi, parseInt_mk_dash]
    rw [show (⟨(renderNat i.natAbs).data⟩ : String) = renderNat i.natAbs from rfl]
    rw [parseNat_renderNat]
    simp only [Option.map_some']
    congr 1
    omega
  · rw [renderInt, if_neg hi]
    rw [parseInt_digits (renderNat i.natAbs) (renderNat_ne_empty _) (renderNat_head_digit _)]
    rw [parseNat_renderNat]
    simp only [Option.map_some']
    congr 1
    omega

/-- C5: the Loader on a zero-byte store fails with the `EmptyData` kind — not
with `ParseError`, and not by silently returning a table. -/
theorem loader_empty_file_is_EmptyData :
    load_data (some []) = .error .EmptyData ∧
    load_data (some []) ≠ .error .ParseError ∧
    ∀ t, load_data (some []) ≠ .ok t := by
  refine ⟨rfl, by simp [load_data], ?_⟩
  intro t h
  simp [load_data] at h

/-- C10: a header-only store (column names, zero data rows) loads successfully
as a zero-row table; `EmptyData` occurs exactly for the zero-byte store. -/
theorem loader_header_only_ok :
    (∀ cols, load_data (some [cols]) = .ok ⟨cols, []⟩) ∧
    (∀ content, load_data (some content) = .error .EmptyData ↔ content = []) := by
  constructor
  · intro cols
    simp [load_data]
  · intro content
    constructor
    · intro h
      cases content with
      | nil => rfl
      | cons header records =>
        simp only [load_data] at h
        split at h <;> simp_all
    · intro h
      subst h
      rfl

theorem loader_header_only_ok_witness :
    load_data (some [["year", "month", "passengers"]]) = .ok ⟨["year", "month", "passengers"], []⟩ ∧
    (load_data (some ([] : List (List String))) = .error .EmptyData ↔ ([] : List (List String)) = []) := by
  exact ⟨loader_header_only_ok.1 _, loader_header_only_ok.2 _⟩

/-- C7: the Generator is idempotent on an existing store: when the store file
exists, no generation happens and the content is returned unchanged. -/
theorem generate_idempotent_on_existing (content : List (List String)) (p : Nat → Int) :
    generate (some content) p = some content := rfl

/-- C6 counterexample: on a store missing the `passengers` column the Loader
does not fail with `ParseError` — the load succeeds. -/
theorem loader_missing_column_not_ParseError :
    load_data (some missingPassengersStore) ≠ .error .ParseError ∧
    load_data (some missingPassengersStore) =
      .ok ⟨["year", "month"], [[some "2000", some "January"]]⟩ := by
  constructor
  · simp [load_data, missingPassengersStore, padRow, toCell]
  · rfl

/-- C6 amended: the load itself succeeds; the missing column only causes the
later column access `df['passengers']` (line 113) to fail — an uncaught
`KeyError`, i.e. an unclassified fatal error, not a Loader `ParseError`. -/
theorem loader_missing_column_keyerror_later :
    ∃ t, load_data (some missingPassengersStore) = .ok t ∧ getCol t "passengers" = none := by
  refine ⟨⟨["year", "month"], [[some "2000", some "January"]]⟩, rfl, rfl⟩

/-! #### Round-trip through the store -/

theorem toCell_some (s : String) (h : s ≠ "") : toCell s = some s := by
  rw [toCell, if_neg h]

theorem renderInt_ne_empty (i : Int) : renderInt i ≠ "" := by
  intro h
  rw [renderInt] at h
  split at h
  · have hd : ('-' :: (renderNat i.natAbs).data) = [] := congrArg String.data h
    simp at hd
  · exact renderNat_ne_empty i.natAbs (by rw [h])

theorem padRow_rowOf (s : Sample) :
    padRow csvHeader.length (rowOf s) =
      [toCell (renderInt s.year), toCell s.month, toCell (renderInt s.passengers)] := rfl

theorem typedRow_cells (t : Table) (ht : t.header = csvHeader) (s : Sample)
    (hm : s.month ≠ "") :
    typedRow t [toCell (renderInt s.year), toCell s.month, toCell (renderInt s.passengers)] =
      ⟨some s.year, some s.month, some s.passengers⟩ := by
  rw [toCell_some _ (renderInt_ne_empty s.year), toCell_some _ hm,
    toCell_some _ (renderInt_ne_empty s.passengers)]
  simp [typedRow, cellAt, ht, csvHeader, colIdx, parseInt_renderInt]

theorem filterMap_id_of_mem (l : List Sample) (f : Sample → Option Sample)
    (h : ∀ s ∈ l, f s = some s) : l.filterMap f = l := by
  induction l with
  | nil => rfl
  | cons a t ih =>
    rw [List.filterMap_cons, h a (List.mem_cons_self a t),
      ih (fun s hs => h s (List.mem_cons_of_mem a hs))]

theorem dropna_csvTable (ds : List Sample) (hm : ∀ s ∈ ds, s.month ≠ "") :
    dropna (csvTable ds) = ds := by
  unfold dropna
  show ((ds.map rowOf).map (padRow csvHeader.length)).filterMap _ = ds
  rw [List.map_map, List.filterMap_map]
  apply filterMap_id_of_mem
  intro s hs
  simp only [Function.comp_apply, padRow_rowOf]
  rw [typedRow_cells (csvTable ds) rfl s (hm s hs)]

theorem load_writeCSV (ds : List Sample) :
    load_data (some (writeCSV ds)) = .ok (csvTable ds) := by
  have hall : (ds.map rowOf).all (fun r => r.length ≤ csvHeader.length) = true := by
    rw [List.all_eq_true]
    intro r hr
    obtain ⟨s, hs, rfl⟩ := List.mem_map.mp hr
    rfl
  unfold load_data writeCSV
  simp only [hall, if_true]
  rfl

/-- C8: writing any Dataset to the store and loading it back yields a table
with the same row count whose rows carry, row for row, the identical
(year, month, passengers) values; cleaning it reproduces the dataset exactly.
(The month fields of a Dataset are month names, hence nonempty.) -/
theorem store_round_trip (ds : List Sample) (hm : ∀ s ∈ ds, s.month ≠ "") :
    load_data (some (writeCSV ds)) = .ok (csvTable ds) ∧
    (csvTable ds).rows.length = ds.length ∧
    dropna (csvTable ds) = ds ∧
    roundTrip ds = .ok ds := by
  refine ⟨load_writeCSV ds, by simp [csvTable], dropna_csvTable ds hm, ?_⟩
  rw [roundTrip, load_writeCSV ds]
  show Except.ok (dropna (csvTable ds)) = _
  rw [dropna_csvTable ds hm]

theorem store_round_trip_witness :
    load_data (some (writeCSV demoRows)) = .ok (csvTable demoRows) ∧
    (csvTable demoRows).rows.length = demoRows.length ∧
    dropna (csvTable demoRows) = demoRows ∧
    roundTrip demoRows = .ok demoRows :=
  store_round_trip demoRows (by decide)

theorem avg_by_year_demoRows :
    avg_by_year demoRows =
      [⟨2000, 415 / 2, 415 / 2, some (25 / 2), 2⟩, ⟨2001, 260, 260, none, 1⟩] := by
  have hk : groupKeys demoRows = [2000, 2001] := by decide
  have hg1 : groupOf demoRows 2000 = [210, 205] := by decide
  have hg2 : groupOf demoRows 2001 = [260] := by decide
  unfold avg_by_year
  rw [hk]
  simp only [List.map_cons, List.map_nil, hg1, hg2]
  norm_num [meanQ, medianQ, medianOfSorted, sampleVar, List.insertionSort, List.orderedInsert]

/-- C2: on a store holding exactly the rows (2000, January, 210),
(2000, February, 205), (2001, January, 260), the grouped summary has exactly
two rows: year 2000 with avg 207.5 and count 2, year 2001 with avg 260 and
count 1, whose `std_dev` is NaN (the sample variance is undefined). -/
theorem example_pipeline_two_years :
    pipeline (some (writeCSV demoRows)) =
      .ok [⟨2000, 415 / 2, 415 / 2, some (25 / 2), 2⟩, ⟨2001, 260, 260, none, 1⟩] ∧
    YearSummary.std_dev ⟨2001, 260, 260, none, 1⟩ = none := by
  constructor
  · unfold pipeline
    rw [load_writeCSV]
    show Except.ok (avg_by_year (dropna (csvTable demoRows))) = _
    rw [dropna_csvTable demoRows (by decide), avg_by_year_demoRows]
  · rfl

/-! #### Generator shape (C3) -/

theorem monthName_inj : ∀ a < 12, ∀ b < 12, monthName (a + 1) = monthName (b + 1) → a = b := by
  decide

/-- C3: every generated dataset has exactly one row per whole month of the
inclusive range 2000-01 .. 2025-12 — 312 rows — with no duplicate
(year, month) pair and consecutive rows one calendar month apart, starting at
(2000, January) and ending at (2025, December). -/
theorem generator_dataset_shape (p : Nat → Int) :
    (genDataset p).length = numMonths ∧ numMonths = 312 ∧
    ((genDataset p).map (fun s => (s.year, s.month))).Nodup ∧
    (∀ i, i + 1 < numMonths →
      (monthIdxAt i < 12 → monthIdxAt (i + 1) = monthIdxAt i + 1 ∧ yearAt (i + 1) = yearAt i) ∧
      (monthIdxAt i = 12 → monthIdxAt (i + 1) = 1 ∧ yearAt (i + 1) = yearAt i + 1)) ∧
    (genDataset p)[0]? = some ⟨2000, "January", p 0⟩ ∧
    (genDataset p)[311]? = some ⟨2025, "December", p 311⟩ := by
  refine ⟨by simp [genDataset], rfl, ?_, ?_, ?_, ?_⟩
  · rw [genDataset, List.map_map]
    apply List.Nodup.map_on
    · intro i hi j hj heq
      simp only [Function.comp_apply, Prod.mk.injEq] at heq
      obtain ⟨hy, hmn⟩ := heq
      have hm : i % 12 = j % 12 := by
        have h1 : i % 12 < 12 := Nat.mod_lt _ (by norm_num)
        have h2 : j % 12 < 12 := Nat.mod_lt _ (by norm_num)
        exact monthName_inj (i % 12) h1 (j % 12) h2 (by simpa [monthIdxAt] using hmn)
      simp only [yearAt] at hy
      omega
    · exact List.nodup_range _
  · intro i hilt
    constructor
    · intro hlt
      simp only [monthIdxAt, yearAt] at hlt ⊢
      constructor
      · omega
      · have : (i + 1) / 12 = i / 12 := by omega
        rw [this]
    · intro heq
      simp only [monthIdxAt, yearAt] at heq ⊢
      constructor
      · omega
      · have h1 : (i + 1) / 12 = i / 12 + 1 := by omega
        rw [h1]
        push_cast
        ring
  · have h0 : (0 : Nat) < numMonths := by norm_num [numMonths]
    simp only [genDataset, List.getElem?_map, List.getElem?_range h0, Option.map_some']
    have hy : yearAt 0 = 2000 := by norm_num [yearAt]
    have hm : monthIdxAt 0 = 1 := rfl
    rw [hy, hm]
    rfl
  · have h311 : (311 : Nat) < numMonths := by norm_num [numMonths]
    simp only [genDataset, List.getElem?_map, List.getElem?_range h311, Option.map_some']
    have hy : yearAt 311 = 2025 := by norm_num [yearAt]
    have hm : monthIdxAt 311 = 12 := rfl
    rw [hy, hm]
    rfl

theorem generator_dataset_shape_witness :
    (genDataset (fun _ => (0 : Int))).length = numMonths ∧
    (monthIdxAt 1 = monthIdxAt 0 + 1 ∧ yearAt 1 = yearAt 0) := by
  refine ⟨(generator_dataset_shape (fun _ => 0)).1, ?_⟩
  exact ((generator_dataset_shape (fun _ => 0)).2.2.2.1 0 (by norm_num [numMonths])).1 (by decide)

/-! #### Seasonal phase (C4) -/

/-- C4: evaluating the seasonal component: the sinusoid
`80*sin(2*pi*(m-1)/12)` attains its maximum 80 at calendar month 4 (April)
and is already down to 40 in June and 0 in July — the phase does not peak
mid-year, contradicting the claim and the code's own comment
"seasonal pattern: peak around mid-year" (line 53). -/
theorem seasonal_peaks_in_april :
    seasonal 4 = 80 ∧ (∀ m : Nat, seasonal m ≤ seasonal 4) ∧
    seasonal 6 = 40 ∧ seasonal 7 = 0 ∧
    (∀ noise i, passengersAt noise i =
      npRound (200 + 5 / 2 * (i : ℝ) + seasonal (monthIdxAt i) + noise i)) := by
  have h4 : seasonal 4 = 80 := by
    rw [seasonal]
    have harg : 2 * Real.pi * (((4 : Nat) : ℝ) - 1) / 12 = Real.pi / 2 := by
      push_cast
      ring
    rw [harg, Real.sin_pi_div_two]
    norm_num
  refine ⟨h4, ?_, ?_, ?_, fun noise i => rfl⟩
  · intro m
    rw [h4, seasonal]
    have hs := Real.sin_le_one (2 * Real.pi * ((m : ℝ) - 1) / 12)
    linarith
  · rw [seasonal]
    have harg : 2 * Real.pi * (((6 : Nat) : ℝ) - 1) / 12 = Real.pi - Real.pi / 6 := by
      push_cast
      ring
    rw [harg, Real.sin_pi_sub, Real.sin_pi_div_six]
    norm_num
  · rw [seasonal]
    have harg : 2 * Real.pi * (((7 : Nat) : ℝ) - 1) / 12 = Real.pi := by
      push_cast
      ring
    rw [harg, Real.sin_pi]
    norm_num

/-! #### Derived date field (C9) -/

theorem monthName_parses : ∀ m, 1 ≤ m → m ≤ 12 → parseMonthName (monthName m) = some m := by
  intro m h1 h2
  interval_cases m <;> rfl

theorem deriveDates_ok_iff (ds : List Sample) (l : List (Int × Nat × Nat)) :
    deriveDates ds = .ok l ↔
      List.Forall₂ (fun s d => toDate s.year s.month = some d) ds l := by
  induction ds generalizing l with
  | nil =>
    simp only [deriveDates]
    constructor
    · intro h
      obtain rfl : ([] : List (Int × Nat × Nat)) = l := Except.ok.inj h
      exact List.Forall₂.nil
    · intro h
      cases h
      rfl
  | cons s t ih =>
    simp only [deriveDates]
    cases htd : toDate s.year s.month with
    | none =>
      constructor
      · intro h
        exact absurd h (by simp)
      · intro h
        cases h with
        | cons hsd htl =>
          rw [htd] at hsd
          cases hsd
    | some d =>
      constructor
      · intro h
        cases hdt : deriveDates t with
        | error e =>
          rw [hdt] at h
          simp [Except.map] at h
        | ok tl =>
          rw [hdt] at h
          simp only [Except.map] at h
          obtain rfl : d :: tl = l := Except.ok.inj h
          exact List.Forall₂.cons htd ((ih tl).mp hdt)
      · intro h
        cases h with
        | cons hsd htl =>
          rw [htd] at hsd
          obtain rfl := Option.some.inj hsd
          rw [(ih _).mpr htl]
          rfl

theorem deriveDates_error_of_bad (ds : List Sample)
    (h : ∃ s ∈ ds, parseMonthName s.month = none) :
    ∃ e, deriveDates ds = .error e := by
  induction ds with
  | nil => simp at h
  | cons s t ih =>
    obtain ⟨r, hr, hrn⟩ := h
    rcases List.mem_cons.mp hr with rfl | hrt
    · exact ⟨r.month, by simp [deriveDates, toDate, hrn]⟩
    · cases htd : toDate s.year s.month with
      | none => exact ⟨s.month, by simp [deriveDates, htd]⟩
      | some d =>
        obtain ⟨e, he⟩ := ih ⟨r, hrt, hrn⟩
        exact ⟨e, by simp [deriveDates, htd, he, Except.map]⟩

theorem deriveDates_ok_of_all (ds : List Sample)
    (h : ∀ s ∈ ds, (parseMonthName s.month).isSome) :
    ∃ l, deriveDates ds = .ok l := by
  induction ds with
  | nil => exact ⟨[], rfl⟩
  | cons s t ih =>
    have hs := h s (List.mem_cons_self s t)
    cases hpm : parseMonthName s.month with
    | none => rw [hpm] at hs; cases hs
    | some m =>
      obtain ⟨l, hl⟩ := ih (fun r hr => h r (List.mem_cons_of_mem s hr))
      exact ⟨(s.year, m, 1) :: l, by simp [deriveDates, toDate, hpm, hl, Except.map]⟩

/-- C9: the derived-date step builds the first-of-month calendar date
(year, parsed month, day 1) for every row; it succeeds on every month name
the Generator can produce, and an unrecognized month name makes the whole
step fail with a propagated fatal error. -/
theorem derived_date_step (ds : List Sample) :
    (∀ m, 1 ≤ m → m ≤ 12 → parseMonthName (monthName m) = some m) ∧
    (∀ l, deriveDates ds = .ok l ↔
      List.Forall₂ (fun s d => toDate s.year s.month = some d) ds l) ∧
    ((∃ s ∈ ds, parseMonthName s.month = none) → ∃ e, deriveDates ds = .error e) ∧
    (∀ p, ∃ l, deriveDates (genDataset p) = .ok l) := by
  refine ⟨monthName_parses, fun l => deriveDates_ok_iff ds l, deriveDates_error_of_bad ds, ?_⟩
  intro p
  apply deriveDates_ok_of_all
  intro s hs
  simp only [genDataset, List.mem_map, List.mem_range] at hs
  obtain ⟨i, hi, rfl⟩ := hs
  have hb1 : 1 ≤ monthIdxAt i := by simp [monthIdxAt]
  have hb2 : monthIdxAt i ≤ 12 := by
    have := Nat.mod_lt i (show 0 < 12 by norm_num)
    simp [monthIdxAt]
    omega
  rw [monthName_parses (monthIdxAt i) hb1 hb2]
  rfl

theorem derived_date_step_witness :
    deriveDates demoRows = .ok [(2000, 1, 1), (2000, 2, 1), (2001, 1, 1)] := by
  apply ((derived_date_step demoRows).2.1 [(2000, 1, 1), (2000, 2, 1), (2001, 1, 1)]).mpr
  exact List.Forall₂.cons rfl (List.Forall₂.cons rfl (List.Forall₂.cons rfl List.Forall₂.nil))

/-! #### Grouped aggregation (C1) -/

theorem groupKeys_sorted (rows : List Sample) : (groupKeys rows).Sorted (· < ·) := by
  apply List.Sorted.lt_of_le
  · exact List.sorted_insertionSort _ _
  · exact (List.perm_insertionSort _ _).symm.nodup (List.nodup_dedup _)

theorem avg_by_year_keys (rows : List Sample) :
    (avg_by_year rows).map YearSummary.year = groupKeys rows := by
  rw [avg_by_year, List.map_map]
  exact List.map_id _

theorem mem_groupKeys (rows : List Sample) (y : Int) :
    y ∈ groupKeys rows ↔ ∃ s ∈ rows, s.year = y := by
  rw [groupKeys, (List.perm_insertionSort _ _).mem_iff, List.mem_dedup]
  simp

theorem groupOf_ne_nil (rows : List Sample) (y : Int) (hy : y ∈ groupKeys rows) :
    groupOf rows y ≠ [] := by
  obtain ⟨s, hs, rfl⟩ := (mem_groupKeys rows y).mp hy
  rw [groupOf]
  intro h
  have hf := List.map_eq_nil_iff.mp h
  have hm : s ∈ rows.filter (fun r => r.year = s.year) :=
    List.mem_filter.mpr ⟨hs, by simp⟩
  rw [hf] at hm
  exact absurd hm (List.not_mem_nil s)

theorem meanQ_spec (xs : List Int) (h : xs ≠ []) :
    (xs.length : ℚ) * meanQ xs = (xs.map (fun x : Int => (x : ℚ))).sum := by
  have h0 : xs.length ≠ 0 := fun hl => h (List.length_eq_zero.mp hl)
  have hlen : (xs.length : ℚ) ≠ 0 := Nat.cast_ne_zero.mpr h0
  rw [meanQ, mul_div_cancel₀ _ hlen]

theorem medianQ_spec (xs l : List Int) (hp : l.Perm xs) (hs : l.Sorted (· ≤ ·)) :
    medianQ xs = medianOfSorted l := by
  rw [medianQ]
  congr 1
  exact List.eq_of_perm_of_sorted ((List.perm_insertionSort _ xs).trans hp.symm)
    (List.sorted_insertionSort _ xs) hs

theorem sampleVar_none_iff (xs : List Int) : sampleVar xs = none ↔ xs.length ≤ 1 := by
  rw [sampleVar]
  split <;> simp_all

theorem sampleVar_nonneg (xs : List Int) (v : ℚ) (h : sampleVar xs = some v) : 0 ≤ v := by
  rw [sampleVar] at h
  split at h
  · cases h
  · next hlen =>
    obtain rfl := Option.some.inj h
    apply div_nonneg
    · apply List.sum_nonneg
      intro q hq
      obtain ⟨x, hx, rfl⟩ := List.mem_map.mp hq
      positivity
    · have h2 : 2 ≤ xs.length := by omega
      have h2q : (2 : ℚ) ≤ (xs.length : ℚ) := by exact_mod_cast h2
      linarith

theorem cast_sq_sum (l : List Int) (m : ℚ) :
    (((l.map (fun x : Int => ((x : ℚ) - m) ^ 2)).sum : ℚ) : ℝ)
      = (l.map (fun x : Int => ((x : ℝ) - (m : ℝ)) ^ 2)).sum := by
  induction l with
  | nil => simp
  | cons a t ih =>
    rw [List.map_cons, List.sum_cons, List.map_cons, List.sum_cons, Rat.cast_add, ih]
    push_cast
    ring

/-- C1: for every cleaned dataset, the grouped aggregation outputs exactly one
row per distinct year, sorted strictly ascending by year, with the columns
{year, avg, median, std_dev, count}: per output row, `count` is the (positive)
number of cleaned rows of that year, `count * avg` is the sum of those rows'
passenger values (so `avg` is their arithmetic mean), `median` is the
positional median of the sorted passenger values, and `std_dev` is the
unbiased sample standard deviation — NaN (`none`) exactly for one-element
groups, still an ordinary output row. -/
theorem grouped_aggregation_correct (rows : List Sample) :
    ((avg_by_year rows).map YearSummary.year).Sorted (· < ·) ∧
    (∀ y : Int, y ∈ (avg_by_year rows).map YearSummary.year ↔ ∃ s ∈ rows, s.year = y) ∧
    (∀ g ∈ avg_by_year rows,
      g.count = (rows.filter (fun r => r.year = g.year)).length ∧
      0 < g.count ∧
      (g.count : ℚ) * g.avg =
        ((rows.filter (fun r => r.year = g.year)).map (fun r => (r.passengers : ℚ))).sum ∧
      (∀ l : List Int,
        l.Perm ((rows.filter (fun r => r.year = g.year)).map Sample.passengers) →
        l.Sorted (· ≤ ·) → g.median = medianOfSorted l) ∧
      (g.std_dev = none ↔ g.count = 1) ∧
      (2 ≤ g.count → ∃ v : ℝ, g.std_dev = some v ∧ 0 ≤ v ∧
        ((g.count : ℝ) - 1) * v ^ 2 =
          ((rows.filter (fun r => r.year = g.year)).map
            (fun r => ((r.passengers : ℝ) - (g.avg : ℝ)) ^ 2)).sum)) := by
  refine ⟨?_, ?_, ?_⟩
  · rw [avg_by_year_keys]
    exact groupKeys_sorted rows
  · intro y
    rw [avg_by_year_keys]
    exact mem_groupKeys rows y
  · intro g hg
    rw [avg_by_year, List.mem_map] at hg
    obtain ⟨y, hy, rfl⟩ := hg
    have hne : groupOf rows y ≠ [] := groupOf_ne_nil rows y hy
    have hpos : 0 < (groupOf rows y).length := List.length_pos.mpr hne
    refine ⟨?_, hpos, ?_, ?_, ?_, ?_⟩
    · show (groupOf rows y).length = (rows.filter (fun r => r.year = y)).length
      rw [groupOf, List.length_map]
    · show ((groupOf rows y).length : ℚ) * meanQ (groupOf rows y) = _
      rw [meanQ_spec _ hne, groupOf, List.map_map]
      rfl
    · intro l hp hsorted
      exact medianQ_spec _ l hp hsorted
    · constructor
      · intro h
        have hn : sampleVar (groupOf rows y) = none :=
          Option.map_eq_none'.mp
            (h : (sampleVar (groupOf rows y)).map (fun q : ℚ => Real.sqrt (q : ℝ)) = none)
        have hle := (sampleVar_none_iff _).mp hn
        show (groupOf rows y).length = 1
        omega
      · intro h
        have h' : (groupOf rows y).length = 1 := h
        have hn : sampleVar (groupOf rows y) = none := (sampleVar_none_iff _).mpr (by omega)
        show (sampleVar (groupOf rows y)).map (fun q : ℚ => Real.sqrt (q : ℝ)) = none
        rw [hn]
        rfl
    · intro h2
      have h2' : 2 ≤ (groupOf rows y).length := h2
      have hlen : ¬ (groupOf rows y).length ≤ 1 := by omega
      set gl := groupOf rows y with hgl
      set m := meanQ gl with hm
      set S := (gl.map (fun x : Int => ((x : ℚ) - m) ^ 2)).sum with hS
      have hsv : sampleVar gl = some (S / ((gl.length : ℚ) - 1)) := by
        rw [sampleVar, if_neg hlen, hS, hm]
      have hsum : ((rows.filter (fun r => r.year = y)).map
          (fun r => ((r.passengers : ℝ) - (m : ℝ)) ^ 2)).sum
          = (gl.map (fun x : Int => ((x : ℝ) - (m : ℝ)) ^ 2)).sum := by
        rw [hgl, groupOf, List.map_map]
        rfl
      refine ⟨Real.sqrt ((S / ((gl.length : ℚ) - 1) : ℚ) : ℝ), ?_, Real.sqrt_nonneg _, ?_⟩
      · show (sampleVar gl).map (fun q : ℚ => Real.sqrt (q : ℝ)) = _
        rw [hsv]
        rfl
      · have hv0 : (0 : ℝ) ≤ ((S / ((gl.length : ℚ) - 1) : ℚ) : ℝ) := by
          have hnn := sampleVar_nonneg gl _ hsv
          exact_mod_cast hnn
        show ((gl.length : ℝ) - 1) * _ ^ 2 = _
        rw [Real.sq_sqrt hv0]
        have hc : ((gl.length : ℝ)) - 1 ≠ 0 := by
          have h2r : (2 : ℝ) ≤ (gl.length : ℝ) := by exact_mod_cast h2'
          linarith
        have hcast : ((S / ((gl.length : ℚ) - 1) : ℚ) : ℝ)
            = ((S : ℚ) : ℝ) / ((gl.length : ℝ) - 1) := by
          push_cast
          ring
        rw [hcast, hS, cast_sq_sum gl m, hsum, mul_comm, div_mul_cancel₀ _ hc]

theorem grouped_aggregation_correct_witness :
    ((avg_by_year demoRows).map YearSummary.year).Sorted (· < ·) ∧
    ((2001 : Int) ∈ (avg_by_year demoRows).map YearSummary.year ↔
      ∃ s ∈ demoRows, s.year = 2001) ∧
    (⟨2000, 415 / 2, 415 / 2, some (25 / 2), 2⟩ : YearSummary).count =
      (demoRows.filter (fun r => r.year =
        (⟨2000, 415 / 2, 415 / 2, some (25 / 2), 2⟩ : YearSummary).year)).length := by
  have hmem : (⟨2000, 415 / 2, 415 / 2, some (25 / 2), 2⟩ : YearSummary) ∈ avg_by_year demoRows := by
    rw [avg_by_year_demoRows]
    exact List.mem_cons_self _ _
  exact ⟨(grouped_aggregation_correct demoRows).1,
    (grouped_aggregation_correct demoRows).2.1 2001,
    ((grouped_aggregation_correct demoRows).2.2 _ hmem).1⟩
